import Mathlib

/-!
Verification of the img-trans-client upload pipeline: a shallow embedding of
the `ApiService` transport layer (src/services/api.ts) and the
`ImageUploader` component (src/components/ImageUploader.tsx), followed by
theorems about the embedded operations.
-/

namespace ImgClient

/-- JSON values as produced by a successful JSON.parse call. -/
inductive Json where
  | null
  | bool (b : Bool)
  | num (q : ℚ)
  | str (s : String)
  | arr (elems : List Json)
  | obj (fields : List (String × Json))

/-- Character-list rendition of the JS startsWith test the code applies to
file.type; the list form evaluates inside the kernel, which the built-in
String.startsWith does not. -/
def strStartsWith (s pre : String) : Bool :=
  List.isPrefixOf pre.data s.data

/-- Helper scanning every suffix of a character list for the pattern. -/
def strContainsAux (pat : List Char) : List Char → Bool
  | [] => pat.isEmpty
  | c :: rest => List.isPrefixOf pat (c :: rest) || strContainsAux pat rest

/-- Character-list rendition of s.indexOf(pat) differing from -1, the test the
paste handler applies to clipboard item types. -/
def strContains (s pat : String) : Bool :=
  strContainsAux pat.data s.data

/-- JS property access v.key as applied to a JSON.parse result: throws
(Except.error) on null, yields the field for objects (none standing for
undefined when absent), and undefined for every other value. -/
def jsGet (v : Json) (key : String) : Except Unit (Option Json) :=
  match v with
  | .null => .error ()
  | .obj fields => .ok (List.lookup key fields)
  | _ => .ok none

/-- JS truthiness of a JSON.parse result. -/
def jsTruthy : Json → Bool
  | .null => false
  | .bool b => b
  | .num q => decide (q ≠ 0)
  | .str s => decide (s ≠ "")
  | .arr _ => true
  | .obj _ => true

mutual

/-- JS String() coercion of one array element inside Array.prototype.join:
null renders as the empty string, other values as their string coercion. -/
def jsElemToString : Json → String
  | .null => ""
  | .bool b => cond b "true" "false"
  | .num q => toString q
  | .str s => s
  | .arr elems => jsListToString elems
  | .obj _ => "[object Object]"

/-- Comma join of stringified array elements, as Array.prototype.toString. -/
def jsListToString : List Json → String
  | [] => ""
  | [v] => jsElemToString v
  | v :: rest => jsElemToString v ++ "," ++ jsListToString rest

end

/-- JS String() coercion of a JSON.parse result, the conversion the Error
constructor applies to a non-string message argument. -/
def jsToString : Json → String
  | .null => "null"
  | .bool b => cond b "true" "false"
  | .num q => toString q
  | .str s => s
  | .arr elems => jsListToString elems
  | .obj _ => "[object Object]"

/-- Reason string of the rejection built in the non-2xx branch of the load
listener in ApiService.translateImage: JSON.parse the body inside a try, read
errorResponse.detail with the Upload failed fallback for falsy values, and
fall back to the HTTP status line when anything in the try throws. -/
def errorReason (status : Nat) (statusText : String) (body : Except String Json) : String :=
  match body with
  | .error _ => "HTTP " ++ toString status ++ ": " ++ statusText
  | .ok j =>
    match jsGet j "detail" with
    | .error _ => "HTTP " ++ toString status ++ ": " ++ statusText
    | .ok none => "Upload failed"
    | .ok (some d) => if jsTruthy d then jsToString d else "Upload failed"

/-- The load listener of ApiService.translateImage over the response status,
status text and the JSON.parse outcome of the response body: 2xx responses
resolve with the parsed body as-is, malformed 2xx bodies reject with the parse
error appended to the Invalid response format message, and every other status
rejects with the error-envelope reason. -/
def handleLoad (status : Nat) (statusText : String) (body : Except String Json) : Except String Json :=
  if 200 ≤ status ∧ status < 300 then
    match body with
    | .ok j => .ok j
    | .error e => .error ("Invalid response format: " ++ e)
  else
    .error (errorReason status statusText body)

/-- One XMLHttpRequest upload progress event. -/
structure ProgressEvent where
  lengthComputable : Bool
  loaded : Nat
  total : Nat

/-- Math.round of the upload fraction scaled to a percentage, in exact
rational arithmetic; Mathlib round, like Math.round, rounds halves up. -/
def progressPercent (loaded total : Nat) : ℤ :=
  round ((loaded : ℚ) / (total : ℚ) * 100)

/-- The progress listener of ApiService.translateImage: the callback receives
the rounded percentage only when the event length is computable and a callback
was supplied. -/
def progressCallbackValue (e : ProgressEvent) (hasCallback : Bool) : Option ℤ :=
  if e.lengthComputable && hasCallback then
    some (progressPercent e.loaded e.total)
  else
    none

/-- Outcome of a fetch call: a transport error, or a response carrying an HTTP
status and the JSON.parse outcome of its body. -/
inductive FetchOutcome where
  | netError
  | response (status : Nat) (body : Except String Json)

/-- ApiService.getLanguages over the fetch outcome: non-ok statuses throw the
Failed to fetch languages error, otherwise the parsed body's languages field
is returned (none standing for undefined when the field is absent); every
caught error is logged and rethrown. -/
def getLanguages (o : FetchOutcome) : Except String (Option Json) :=
  match o with
  | .netError => .error "TypeError: Failed to fetch"
  | .response status body =>
    if 200 ≤ status ∧ status < 300 then
      match body with
      | .error e => .error e
      | .ok data =>
        match jsGet data "languages" with
        | .error _ => .error "TypeError: null has no properties"
        | .ok v => .ok v
    else .error "Failed to fetch languages"

/-- The static fallback catalog hard-coded in the loadLanguages effect of the
ImageUploader component. -/
def fallbackLanguages : List (String × String) :=
  [("en", "English"), ("es", "Spanish"), ("fr", "French"),
   ("de", "German"), ("zh", "Chinese"), ("ja", "Japanese")]

/-- The fallback catalog as the JSON object stored into the languages state. -/
def fallbackJson : Json :=
  Json.obj (fallbackLanguages.map fun p => (p.1, Json.str p.2))

/-- The languages state loadLanguages leaves behind: the catalog returned by
getLanguages when it resolves (none standing for undefined when the languages
field was absent), the static fallback when it throws. -/
def loadLanguages (o : FetchOutcome) : Option Json :=
  match getLanguages o with
  | .ok v => v
  | .error _ => some fallbackJson

/-- A file as the uploader sees it: a name and a declared media type. -/
structure JsFile where
  name : String
  type : String

/-- The React state of the ImageUploader component. -/
structure UIState where
  dragActive : Bool
  uploading : Bool
  uploadProgress : ℤ
  selectedLanguage : String
  languages : Option Json
  result : Option Json
  error : Option String
  copied : Bool

/-- The useState initial values of the component. -/
def initState : UIState :=
  { dragActive := false, uploading := false, uploadProgress := 0,
    selectedLanguage := "en", languages := some (Json.obj []),
    result := none, error := none, copied := false }

/-- loadLanguages applied to the component state: only the languages state is
written; the selected language in particular is untouched. -/
def applyLoadLanguages (s : UIState) (o : FetchOutcome) : UIState :=
  { s with languages := loadLanguages o }

/-- The synchronous prefix of handleFileUpload: the image/ media-type gate,
then the four state writes preceding the ApiService.translateImage call; the
Bool records whether that call is reached. -/
def handleFileUploadStart (s : UIState) (file : JsFile) : UIState × Bool :=
  if strStartsWith file.type "image/" then
    ({ s with uploading := true, uploadProgress := 0, error := none, result := none }, true)
  else
    ({ s with error := some "Please select an image file" }, false)

/-- The continuation of handleFileUpload once translateImage settles: success
stores the response, failure stores the message, and the finally block clears
the uploading flag and the progress. -/
def handleFileUploadFinish (s : UIState) (outcome : Except String Json) : UIState :=
  match outcome with
  | .ok r => { s with result := some r, uploading := false, uploadProgress := 0 }
  | .error e => { s with error := some e, uploading := false, uploadProgress := 0 }

/-- The drop handler: clears the drag flag, takes the first dropped file, and
forwards it to handleFileUpload only when its type starts with image/,
otherwise setting the upload validation error. -/
def handleDrop (s : UIState) (files : List JsFile) : UIState × Bool :=
  match files with
  | [] => ({ s with dragActive := false }, false)
  | file :: _ =>
    if strStartsWith file.type "image/" then
      handleFileUploadStart { s with dragActive := false } file
    else
      ({ s with dragActive := false, error := some "Please upload an image file" }, false)

/-- The file-picker change handler: the first selected file, when present, is
forwarded to handleFileUpload. -/
def handleFileInputChange (s : UIState) (files : List JsFile) : UIState × Bool :=
  match files with
  | [] => (s, false)
  | file :: _ => handleFileUploadStart s file

/-- One DataTransferItem of a paste event: a declared type and the file
getAsFile would return. -/
structure ClipboardItem where
  type : String
  file : Option JsFile

/-- The scan of the paste handler: the first clipboard item whose declared
type contains the substring image. -/
def firstImageItem : List ClipboardItem → Option ClipboardItem
  | [] => none
  | item :: rest =>
    if strContains item.type "image" then some item else firstImageItem rest

/-- What the paste handler does with a clipboard: nothing when no image-typed
item is present; otherwise default handling is suppressed and, when getAsFile
yields a file, that file goes to handleFileUpload. -/
inductive PasteAction where
  | notIntercepted
  | interceptedNoFile
  | interceptedUpload (f : JsFile)

/-- The paste listener over the clipboard items. -/
def handlePaste (items : List ClipboardItem) : PasteAction :=
  match firstImageItem items with
  | none => .notIntercepted
  | some item =>
    match item.file with
    | none => .interceptedNoFile
    | some f => .interceptedUpload f

/-- The paste pipeline continued through handleFileUpload: the component state
after the paste and whether ApiService.translateImage is reached. -/
def handlePasteThenUpload (s : UIState) (items : List ClipboardItem) : UIState × Bool :=
  match handlePaste items with
  | .interceptedUpload f => handleFileUploadStart s f
  | _ => (s, false)

/-- JS optional chaining v?.key on a possibly-undefined JSON value: undefined
and null short-circuit to undefined, objects yield the field (undefined when
absent), and every other value yields undefined. -/
def jsOptChainGet (v : Option Json) (key : String) : Option Json :=
  match v with
  | none => none
  | some .null => none
  | some (.obj fields) => List.lookup key fields
  | some _ => none

/-- The observable effects of handleCopyText: the text placed on the
clipboard, whether the copied flag was set, and the delay of the scheduled
revert. -/
structure CopyEffect where
  clipboardWrite : Option String
  copiedSet : Bool
  revertDelayMs : Option Nat

/-- handleCopyText over the current result state: only a truthy
result?.data?.translated_text is written to the clipboard, with the copied
flag set and its revert scheduled 2000 ms later. -/
def handleCopyText (result : Option Json) : CopyEffect :=
  match jsOptChainGet (jsOptChainGet result "data") "translated_text" with
  | some v =>
    if jsTruthy v then
      { clipboardWrite := some (jsToString v), copiedSet := true, revertDelayMs := some 2000 }
    else
      { clipboardWrite := none, copiedSet := false, revertDelayMs := none }
  | none => { clipboardWrite := none, copiedSet := false, revertDelayMs := none }

/-- The claimed reading of the non-2xx failure reason, stated from the spec
words for comparison with errorReason: the reason is the detail string of the
parsed envelope, the HTTP status fallback applying exactly to unparseable
bodies. -/
def specErrorReasonClaim (status : Nat) (statusText : String) (body : Except String Json) : Prop :=
  match body with
  | .error _ =>
    errorReason status statusText body = "HTTP " ++ toString status ++ ": " ++ statusText
  | .ok j =>
    ∃ d, jsGet j "detail" = .ok (some (Json.str d)) ∧ errorReason status statusText body = d

/-- Sufficient failure condition of the catalog fetch named by the amended
catalog claim: transport error, non-2xx status, or unparseable body. -/
def fetchFails : FetchOutcome → Prop
  | .netError => True
  | .response status body => ¬ (200 ≤ status ∧ status < 300) ∨ ∃ e, body = Except.error e

/-- A stale successful result, used as a concrete prior-submission state. -/
def staleResult : Json := Json.obj [("success", Json.bool true)]

example : strStartsWith "image/png" "image/" = true := by decide
example : strStartsWith "text/plain" "image/" = false := by decide
example : strContains "text/imagedata" "image" = true := by decide
example : strContains "text/plain" "image" = false := by decide
example : errorReason 500 "Internal Server Error"
    (.ok (Json.obj [("detail", Json.str "OCR engine unavailable")])) =
    "OCR engine unavailable" := by simp [errorReason, jsGet, jsTruthy, jsToString]
example : errorReason 500 "Internal Server Error" (.ok (Json.obj [])) = "Upload failed" := rfl
example : errorReason 500 "Internal Server Error" (.error "bad") =
    "HTTP 500: Internal Server Error" := rfl
example : errorReason 500 "Internal Server Error" (.ok Json.null) =
    "HTTP 500: Internal Server Error" := rfl

/-- C1: a file whose media type does not start with image/, submitted via the
file picker or the drag-and-drop channel, never reaches the Upload/Translate
Client (no network request) and produces the channel's validation error:
Please select an image file on the picker path, Please upload an image file on
the drop path. -/
theorem c1_nonimage_rejected (s : UIState) (file : JsFile) (rest : List JsFile)
    (h : strStartsWith file.type "image/" = false) :
    (handleFileInputChange s (file :: rest)).2 = false ∧
    (handleFileInputChange s (file :: rest)).1.error = some "Please select an image file" ∧
    (handleDrop s (file :: rest)).2 = false ∧
    (handleDrop s (file :: rest)).1.error = some "Please upload an image file" := by
  simp [handleFileInputChange, handleDrop, handleFileUploadStart, h]

/-- Witness for c1_nonimage_rejected: a text/plain file at the initial state. -/
theorem c1_nonimage_rejected_witness :
    (handleFileInputChange initState [{ name := "notes.txt", type := "text/plain" }]).2 = false ∧
    (handleFileInputChange initState [{ name := "notes.txt", type := "text/plain" }]).1.error =
      some "Please select an image file" ∧
    (handleDrop initState [{ name := "notes.txt", type := "text/plain" }]).2 = false ∧
    (handleDrop initState [{ name := "notes.txt", type := "text/plain" }]).1.error =
      some "Please upload an image file" :=
  c1_nonimage_rejected initState { name := "notes.txt", type := "text/plain" } [] (by decide)

/-- C3: on a 2xx response, a body that fails JSON.parse rejects with the
Invalid response format message carrying the raw parse error, and a body that
parses resolves with the parsed value as the outcome. -/
theorem c3_success_parse (status : Nat) (statusText : String)
    (h1 : 200 ≤ status) (h2 : status < 300) :
    (∀ e, handleLoad status statusText (Except.error e) =
      Except.error ("Invalid response format: " ++ e)) ∧
    (∀ j, handleLoad status statusText (Except.ok j) = Except.ok j) := by
  constructor <;> intro x <;> simp [handleLoad, h1, h2]

/-- Witness for c3_success_parse: status 200. -/
theorem c3_success_parse_witness :
    (∀ e, handleLoad 200 "OK" (Except.error e) =
      Except.error ("Invalid response format: " ++ e)) ∧
    (∀ j, handleLoad 200 "OK" (Except.ok j) = Except.ok j) :=
  c3_success_parse 200 "OK" (by decide) (by decide)

/-- C10: the success branch performs no validation of the body's shape: every
parsed JSON value, whatever its form, resolves as-is, so a format error can
only come from the parse itself. -/
theorem c10_no_shape_validation (status : Nat) (statusText : String) (j : Json)
    (h1 : 200 ≤ status) (h2 : status < 300) :
    handleLoad status statusText (Except.ok j) = Except.ok j := by
  simp [handleLoad, h1, h2]

/-- Witness for c10_no_shape_validation: a 204 response whose body parsed to
JSON null still resolves as-is. -/
theorem c10_no_shape_validation_witness :
    handleLoad 204 "No Content" (Except.ok Json.null) = Except.ok Json.null :=
  c10_no_shape_validation 204 "No Content" Json.null (by decide) (by decide)

/-- C2 counterexample: an HTTP 500 whose body parses to the empty JSON object
refutes the claimed reading of the non-2xx reason; the code produces the
Upload failed reason, which is neither a detail string of the envelope (it has
none) nor the HTTP status fallback reserved for unparseable bodies. -/
theorem c2_counterexample :
    ¬ specErrorReasonClaim 500 "Internal Server Error" (Except.ok (Json.obj [])) ∧
    errorReason 500 "Internal Server Error" (Except.ok (Json.obj [])) = "Upload failed" := by
  constructor
  · intro h
    obtain ⟨d, hd, _⟩ := h
    have hnone : jsGet (Json.obj []) "detail" = Except.ok none := rfl
    rw [hnone] at hd
    simp at hd
  · rfl

/-- C2 amended: outside 2xx the submission fails with the error-envelope
reason, which is the HTTP status fallback when the body is unparseable or
parses to JSON null, the embedded detail string when the parsed envelope
carries a non-empty one, and Upload failed when the envelope parses to a
non-null object without a detail field. -/
theorem c2_amended (status : Nat) (statusText : String) (body : Except String Json)
    (hs : ¬ (200 ≤ status ∧ status < 300)) :
    handleLoad status statusText body = Except.error (errorReason status statusText body) ∧
    (∀ e, body = Except.error e →
      errorReason status statusText body = "HTTP " ++ toString status ++ ": " ++ statusText) ∧
    (body = Except.ok Json.null →
      errorReason status statusText body = "HTTP " ++ toString status ++ ": " ++ statusText) ∧
    (∀ fields, body = Except.ok (Json.obj fields) → List.lookup "detail" fields = none →
      errorReason status statusText body = "Upload failed") ∧
    (∀ fields d, body = Except.ok (Json.obj fields) →
      List.lookup "detail" fields = some (Json.str d) → d ≠ "" →
      errorReason status statusText body = d) := by
  refine ⟨by simp [handleLoad, hs], ?_, ?_, ?_, ?_⟩
  · rintro e rfl; rfl
  · rintro rfl; rfl
  · rintro fields rfl hnone
    simp [errorReason, jsGet, hnone]
  · rintro fields d rfl hdet hne
    simp [errorReason, jsGet, hdet, jsTruthy, jsToString, hne]

/-- Witness for c2_amended: the scenario of an HTTP 500 with the OCR engine
unavailable detail yields exactly that string as the failure reason. -/
theorem c2_amended_witness :
    errorReason 500 "Internal Server Error"
      (Except.ok (Json.obj [("detail", Json.str "OCR engine unavailable")])) =
      "OCR engine unavailable" := by
  have h := c2_amended 500 "Internal Server Error"
    (Except.ok (Json.obj [("detail", Json.str "OCR engine unavailable")])) (by decide)
  exact h.2.2.2.2 [("detail", Json.str "OCR engine unavailable")] "OCR engine unavailable"
    rfl rfl (by decide)

/-- Round on the rationals is monotone, from its floor characterisation. -/
theorem round_mono_rat {x y : ℚ} (h : x ≤ y) : round x ≤ round y := by
  rw [round_eq, round_eq]
  exact Int.floor_mono (by linarith)

/-- The rounded percentage is monotone in the bytes sent. -/
theorem progressPercent_mono {l1 l2 t : Nat} (ht : 0 < t) (h : l1 ≤ l2) :
    progressPercent l1 t ≤ progressPercent l2 t := by
  have ht' : (0 : ℚ) < (t : ℚ) := by exact_mod_cast ht
  have hl : (l1 : ℚ) ≤ (l2 : ℚ) := by exact_mod_cast h
  apply round_mono_rat
  have := (div_le_div_iff_of_pos_right ht').mpr hl
  nlinarith

/-- The rounded percentage is never negative. -/
theorem progressPercent_nonneg (l t : Nat) : 0 ≤ progressPercent l t := by
  have h0 : (0 : ℚ) ≤ (l : ℚ) / (t : ℚ) * 100 := by positivity
  have := round_mono_rat h0
  rwa [round_zero] at this

/-- The rounded percentage never exceeds 100 while the bytes sent stay within
the total. -/
theorem progressPercent_le_hundred {l t : Nat} (ht : 0 < t) (h : l ≤ t) :
    progressPercent l t ≤ 100 := by
  have ht' : (0 : ℚ) < (t : ℚ) := by exact_mod_cast ht
  have hl : (l : ℚ) ≤ (t : ℚ) := by exact_mod_cast h
  have hq : (l : ℚ) / (t : ℚ) * 100 ≤ 100 := by
    have hdiv : (l : ℚ) / (t : ℚ) ≤ 1 := (div_le_one ht').mpr hl
    nlinarith
  have h100 : ((100 : ℤ) : ℚ) = (100 : ℚ) := by norm_num
  have := round_mono_rat hq
  rwa [← h100, round_intCast] at this

/-- C4: a computable-length progress event passes exactly the rounded
percentage to the callback, and over a submission with a fixed positive total
and a non-decreasing sequence of sent-byte counts bounded by the total, the
sequence of callback percentages is non-decreasing and stays within 0 and
100. -/
theorem c4_progress_monotone_bounded (total : Nat) (sent : List Nat)
    (htotal : 0 < total) (hmono : List.Chain' (· ≤ ·) sent)
    (hbound : ∀ x ∈ sent, x ≤ total) :
    (∀ e : ProgressEvent, e.lengthComputable = true →
      progressCallbackValue e true = some (round ((e.loaded : ℚ) / (e.total : ℚ) * 100))) ∧
    List.Chain' (· ≤ ·) (sent.map fun l => progressPercent l total) ∧
    (∀ p ∈ sent.map fun l => progressPercent l total, 0 ≤ p ∧ p ≤ 100) := by
  refine ⟨?_, ?_, ?_⟩
  · intro e he
    simp [progressCallbackValue, he, progressPercent]
  · rw [List.chain'_map]
    exact hmono.imp fun a b hab => progressPercent_mono htotal hab
  · intro p hp
    obtain ⟨l, hl, rfl⟩ := List.mem_map.mp hp
    exact ⟨progressPercent_nonneg l total, progressPercent_le_hundred htotal (hbound l hl)⟩

/-- Witness for c4_progress_monotone_bounded: total of 10 bytes and the sent
sequence 0, 5, 5, 10. -/
theorem c4_progress_monotone_bounded_witness :
    (∀ e : ProgressEvent, e.lengthComputable = true →
      progressCallbackValue e true = some (round ((e.loaded : ℚ) / (e.total : ℚ) * 100))) ∧
    List.Chain' (· ≤ ·) ([0, 5, 5, 10].map fun l => progressPercent l 10) ∧
    (∀ p ∈ [0, 5, 5, 10].map fun l => progressPercent l 10, 0 ≤ p ∧ p ≤ 100) :=
  c4_progress_monotone_bounded 10 [0, 5, 5, 10] (by decide)
    (by simp [List.chain'_cons]) (by decide)

/-- C5 counterexample: with a prior result on display, submitting a text/plain
file through the picker sets the validation error while leaving the prior
result state in place, so an error and a prior submission's result display
simultaneously. -/
theorem c5_counterexample :
    (handleFileInputChange { initState with result := some staleResult }
      [{ name := "notes.txt", type := "text/plain" }]).1.error =
      some "Please select an image file" ∧
    (handleFileInputChange { initState with result := some staleResult }
      [{ name := "notes.txt", type := "text/plain" }]).1.result = some staleResult := by
  exact ⟨rfl, rfl⟩

/-- C5 amended: an attempt that passes validation clears the previous error
and previous result before its outcome is known, but an attempt that fails
validation only sets the channel's error and leaves the prior result in
place, on the picker channel as well as on the drop channel. -/
theorem c5_amended (s : UIState) (file : JsFile) (rest : List JsFile) :
    if strStartsWith file.type "image/" = true then
      (handleFileUploadStart s file).1.error = none ∧
      (handleFileUploadStart s file).1.result = none ∧
      (handleDrop s (file :: rest)).1.error = none ∧
      (handleDrop s (file :: rest)).1.result = none
    else
      (handleFileUploadStart s file).1.error = some "Please select an image file" ∧
      (handleFileUploadStart s file).1.result = s.result ∧
      (handleDrop s (file :: rest)).1.error = some "Please upload an image file" ∧
      (handleDrop s (file :: rest)).1.result = s.result := by
  by_cases h : strStartsWith file.type "image/" = true <;>
    simp [h, handleFileUploadStart, handleDrop]

/-- A pasted file whose type contains image without starting with image/. -/
def oddFile : JsFile := { name := "clip.bin", type := "text/imagedata" }

/-- The clipboard item carrying oddFile. -/
def oddItem : ClipboardItem := { type := "text/imagedata", file := some oddFile }

/-- A pasted PNG file. -/
def pngFile : JsFile := { name := "clip.png", type := "image/png" }

/-- The clipboard item carrying pngFile. -/
def pngItem : ClipboardItem := { type := "image/png", file := some pngFile }

/-- C6 counterexample: a clipboard item whose declared type contains image
without starting with image/ is selected by the paste scan and forwarded, yet
the submission applies the media-type gate before the network request: no
request is issued and the validation error is shown instead. -/
theorem c6_counterexample :
    handlePaste [oddItem] = PasteAction.interceptedUpload oddFile ∧
    (handlePasteThenUpload initState [oddItem]).2 = false ∧
    (handlePasteThenUpload initState [oddItem]).1.error =
      some "Please select an image file" := by
  exact ⟨rfl, rfl, rfl⟩

/-- Every item the paste scan selects has a declared type containing image. -/
theorem firstImageItem_contains (items : List ClipboardItem) (item : ClipboardItem)
    (h : firstImageItem items = some item) : strContains item.type "image" = true := by
  induction items with
  | nil => simp [firstImageItem] at h
  | cons a rest ih =>
    by_cases ha : strContains a.type "image" = true
    · simp only [firstImageItem, ha, if_pos] at h
      obtain rfl : a = item := by injection h
      exact ha
    · simp only [firstImageItem, ha, if_neg, Bool.not_eq_true] at h
      exact ih h

/-- C6 amended: the paste handler scans the clipboard items in order for the
first one whose declared type contains image, leaving the paste event alone
when there is none; when one is found with a file, the handler itself applies
no further check and forwards the file to the submission path, where the
uniform image/ media-type gate still runs before the network request (the
Upload/Translate Client itself never re-validates), so the request is issued
exactly when the file's type starts with image/. -/
theorem c6_amended (s : UIState) (items : List ClipboardItem) :
    (firstImageItem items = none → handlePaste items = PasteAction.notIntercepted) ∧
    (∀ item, firstImageItem items = some item → strContains item.type "image" = true) ∧
    (∀ item f, firstImageItem items = some item → item.file = some f →
      handlePaste items = PasteAction.interceptedUpload f ∧
      (handlePasteThenUpload s items).2 = strStartsWith f.type "image/") := by
  refine ⟨?_, ?_, ?_⟩
  · intro h; simp [handlePaste, h]
  · intro item h; exact firstImageItem_contains items item h
  · intro item f h1 h2
    have hp : handlePaste items = PasteAction.interceptedUpload f := by
      simp [handlePaste, h1, h2]
    refine ⟨hp, ?_⟩
    rw [handlePasteThenUpload, hp]
    by_cases hb : strStartsWith f.type "image/" = true <;>
      simp [handleFileUploadStart, hb]

/-- Witness for c6_amended: a pasted image/png item is intercepted, forwarded,
and reaches the network exactly because its type starts with image/. -/
theorem c6_amended_witness :
    handlePaste [pngItem] = PasteAction.interceptedUpload pngFile ∧
    (handlePasteThenUpload initState [pngItem]).2 =
      strStartsWith "image/png" "image/" := by
  exact (c6_amended initState [pngItem]).2.2 pngItem pngFile rfl rfl

/-- C7 counterexample: a 2xx response whose body parses to an object without a
languages field makes the catalog fetch resolve with an undefined catalog
instead of failing, so the caller stores undefined and no fallback applies. -/
theorem c7_counterexample :
    getLanguages (FetchOutcome.response 200 (Except.ok (Json.obj []))) = Except.ok none ∧
    loadLanguages (FetchOutcome.response 200 (Except.ok (Json.obj []))) = none := by
  exact ⟨rfl, rfl⟩

/-- C7 amended: on a transport error, a non-2xx status, or a body that fails
JSON.parse, the catalog fetch fails and the caller substitutes exactly the
static six-entry catalog, leaving the selected language untouched at its
initial value en, which the fallback maps to English; a parseable 2xx body
without a languages field instead resolves with an undefined catalog and no
fallback applies. -/
theorem c7_amended (o : FetchOutcome) (h : fetchFails o) :
    (∃ msg, getLanguages o = Except.error msg) ∧
    loadLanguages o = some fallbackJson ∧
    (∀ s, (applyLoadLanguages s o).selectedLanguage = s.selectedLanguage) ∧
    initState.selectedLanguage = "en" ∧
    List.lookup "en" fallbackLanguages = some "English" := by
  have hfail : ∃ msg, getLanguages o = Except.error msg := by
    cases o with
    | netError => exact ⟨_, rfl⟩
    | response status body =>
      rcases h with h | ⟨e, rfl⟩
      · exact ⟨"Failed to fetch languages", by simp [getLanguages, h]⟩
      · by_cases hst : 200 ≤ status ∧ status < 300
        · exact ⟨e, by simp [getLanguages, hst]⟩
        · exact ⟨"Failed to fetch languages", by simp [getLanguages, hst]⟩
  obtain ⟨msg, hmsg⟩ := hfail
  refine ⟨⟨msg, hmsg⟩, ?_, fun s => rfl, rfl, rfl⟩
  simp [loadLanguages, hmsg]

/-- Witness for c7_amended: a failed catalog fetch over a transport error. -/
theorem c7_amended_witness :
    (∃ msg, getLanguages FetchOutcome.netError = Except.error msg) ∧
    loadLanguages FetchOutcome.netError = some fallbackJson ∧
    (∀ s, (applyLoadLanguages s FetchOutcome.netError).selectedLanguage =
      s.selectedLanguage) ∧
    initState.selectedLanguage = "en" ∧
    List.lookup "en" fallbackLanguages = some "English" :=
  c7_amended FetchOutcome.netError trivial

/-- C8: a submission that passes validation starts with the displayed progress
set to 0, and whatever state the submission has reached by completion, both
the success and the failure continuation set the progress back to 0. -/
theorem c8_progress_reset (s s2 : UIState) (file : JsFile)
    (h : strStartsWith file.type "image/" = true) :
    (handleFileUploadStart s file).1.uploadProgress = 0 ∧
    (∀ outcome, (handleFileUploadFinish s2 outcome).uploadProgress = 0) := by
  constructor
  · simp [handleFileUploadStart, h]
  · intro outcome; cases outcome <;> rfl

/-- Witness for c8_progress_reset: an image/jpeg submission from a state whose
progress had advanced to 55. -/
theorem c8_progress_reset_witness :
    (handleFileUploadStart initState { name := "photo.jpg", type := "image/jpeg" }).1.uploadProgress = 0 ∧
    (∀ outcome, (handleFileUploadFinish { initState with uploadProgress := 55 } outcome).uploadProgress = 0) :=
  c8_progress_reset initState { initState with uploadProgress := 55 }
    { name := "photo.jpg", type := "image/jpeg" } (by decide)

/-- C9: when the current result carries a non-empty translated text, the copy
action writes exactly that text to the clipboard, sets the copied indicator,
and schedules its revert 2000 ms later. -/
theorem c9_copy_text (fields dataFields : List (String × Json)) (t : String)
    (h1 : List.lookup "data" fields = some (Json.obj dataFields))
    (h2 : List.lookup "translated_text" dataFields = some (Json.str t))
    (h3 : t ≠ "") :
    handleCopyText (some (Json.obj fields)) =
      { clipboardWrite := some t, copiedSet := true, revertDelayMs := some 2000 } := by
  simp [handleCopyText, jsOptChainGet, h1, h2, jsTruthy, jsToString, h3]

/-- Witness for c9_copy_text: a successful outcome whose translated text is
Hello. -/
theorem c9_copy_text_witness :
    handleCopyText (some (Json.obj
      [("success", Json.bool true),
       ("data", Json.obj [("original_text", Json.str "Hola"),
                          ("translated_text", Json.str "Hello")])])) =
      { clipboardWrite := some "Hello", copiedSet := true, revertDelayMs := some 2000 } :=
  c9_copy_text
    [("success", Json.bool true),
     ("data", Json.obj [("original_text", Json.str "Hola"),
                        ("translated_text", Json.str "Hello")])]
    [("original_text", Json.str "Hola"), ("translated_text", Json.str "Hello")]
    "Hello" rfl rfl (by decide)

end ImgClient
